import Mathlib

/-!
Verification of the Generation Job Orchestrator (Go backend, `src/unnamed/part_001`)
against its natural-language specification.

The Go source is shallowly embedded: pure fragments become Lean functions, the
mutable job record and its two mutators (`setJobError`, `completeJobWithVideo`)
become explicit state passing, and the effectful collaborators (filesystem,
provider submit/poll HTTP calls, video download) become explicit inputs to the
background-task driver.  Machine integers from the source (`int`) are modelled
as `Int`.
-/

namespace AdsVideoGen

/-- Job lifecycle status, the string field `Job.Status` of the source restricted
to the three values the code ever assigns: `"processing"`, `"completed"`,
`"failed"`. -/
inductive Status
  | processing
  | completed
  | failed
deriving DecidableEq

/-- The `Job` record of the source (`type Job struct`).  `videoURL` and
`error` start out as Go zero values (empty strings). -/
structure Job where
  id : String
  status : Status
  imagePaths : List String
  videoURL : String
  prompt : String
  style : String
  ratio : String
  duration : Int
  model : String
  createdAt : String
  error : String
deriving DecidableEq

/-- `StyleConfig` of the source: provider model ID, display name, base prompt,
per-video price (exact decimal, modelled as a rational). -/
structure StyleConfig where
  model : String
  modelName : String
  prompt : String
  price : Rat
deriving DecidableEq

/-- The static `styleConfigs` map of the source, as an association list. -/
def styleConfigs : List (String × StyleConfig) :=
  [ ("cinematic",
      { model := "google:3@3", modelName := "Veo 3.1 Fast",
        prompt := "Cinematic product commercial. Camera slowly orbits around the product. Dramatic studio lighting with soft rim light and shadows. Shallow depth of field. Slow smooth dolly movement. High-end luxury brand advertisement quality.",
        price := 0.80 }),
    ("rotating",
      { model := "vidu:4@2", modelName := "Vidu Q3 Turbo",
        prompt := "Product rotating 360 degrees on a turntable. Soft even lighting from all sides, no harsh shadows. The product spins slowly and smoothly in a complete rotation. Professional e-commerce product photography style.",
        price := 0.13 }),
    ("lifestyle",
      { model := "pixverse:1@7", modelName := "PixVerse v5.6",
        prompt := "Lifestyle product video. The product in a real-world environment. Warm golden hour natural lighting, soft bokeh background. A hand gently picks up and interacts with the product. Warm color grading, Instagram aesthetic. Authentic and relatable.",
        price := 0.24 }),
    ("tiktok",
      { model := "vidu:4@1", modelName := "Vidu Q3",
        prompt := "Viral TikTok product ad. Quick dynamic camera zoom into the product, punchy energy. The product appears with motion — sliding into frame, spinning, or dropping onto a surface with impact. Trendy Gen-Z aesthetic, high contrast, fast-paced rhythm.",
        price := 0.05 }),
    ("unboxing",
      { model := "vidu:4@2", modelName := "Vidu Q3 Turbo",
        prompt := "POV first-person unboxing video. Start with a closed sleek premium cardboard packaging box on a clean table. Two hands slowly lift the lid off the separate cardboard box. Inside the box, the product is gradually revealed. The box is NOT the product — it is separate outer packaging that contains the product. Smooth slow motion, soft natural lighting, ASMR satisfying reveal moment. The final frame shows the product fully revealed out of the box.",
        price := 0.13 }),
    ("minimal",
      { model := "vidu:4@1", modelName := "Vidu Q3",
        prompt := "Minimal clean product video. The product rests on a smooth surface. Soft directional lighting creates gentle shadows. Very subtle slow camera drift. No distractions, just the product. Apple-style minimalism.",
        price := 0.05 }) ]

/-- Style lookup with the source's fallback: an unknown style falls back to
`styleConfigs["cinematic"]` (and, as in Go map semantics, to a zero-value
config if even that key were absent). -/
def resolveStyle (style : String) : StyleConfig :=
  match styleConfigs.lookup style with
  | some cfg => cfg
  | none =>
    match styleConfigs.lookup "cinematic" with
    | some cfg => cfg
    | none => { model := "", modelName := "", prompt := "", price := 0 }

/-- The `ratioSizes` map of the source: aspect-ratio preset to pixel size. -/
def ratioSizes : List (String × (Int × Int)) :=
  [ ("9:16", (1080, 1920)),
    ("16:9", (1920, 1080)),
    ("1:1", (1080, 1080)) ]

/-- `filepath.Join("uploads", fn)` for a plain filename. -/
def uploads (fn : String) : String := "uploads/" ++ fn

/-- A frame role sent to the provider: the `"frame"` key of a `frameImages`
entry (`"first"` or `"last"`). -/
inductive FrameRole
  | first
  | last
deriving DecidableEq

/-- One `frameImages` entry built by `runwareGenerate`: the image (identified
by its path; the base64 payload is data-irrelevant here) plus its optional
role.  Middle images get no role (`none`). -/
structure FrameImage where
  path : String
  role : Option FrameRole
deriving DecidableEq

/-- The clamp at the top of `runwareGenerate`: more than 2 images are reduced
to the first and the last of the input order. -/
def usePathsOf (paths : List String) : List String :=
  if 2 < paths.length then
    match paths with
    | [] => paths
    | p :: rest => [p, List.getLast (p :: rest) (List.cons_ne_nil p rest)]
  else paths

/-- An observable log event of the background task: `fmt.Printf` diagnostics
are informational, `setJobError` records an error. -/
inductive LogEvent
  | info (msg : String)
  | errorLog (msg : String)
deriving DecidableEq

/-- Whether a log event records an error. -/
def LogEvent.isErr : LogEvent → Bool
  | .info _ => false
  | .errorLog _ => true

/-- The events emitted by the image clamp: when more than 2 images are
supplied, the source logs `"Clamped %d images → 2 (first + last)"` via
`fmt.Printf` — informational only. -/
def clampEvents (paths : List String) : List LogEvent :=
  if 2 < paths.length then
    [.info ("Clamped " ++ toString paths.length ++ " images → 2 (first + last)")]
  else []

/-- The per-index role assignment of `runwareGenerate`'s frame loop: `n` is the
number of retained images, `i` the index.  The `"unboxing"` style overrides
the single-image case to `last`; otherwise a single image is `first`; with
several images the first is `first` and the last is `last`. -/
def frameRole (style : String) (n i : Nat) : Option FrameRole :=
  if style = "unboxing" then
    if n = 1 then some .last
    else if i = 0 then some .first
    else if i = n - 1 then some .last
    else none
  else
    if n = 1 then some .first
    else if i = 0 then some .first
    else if i = n - 1 then some .last
    else none

/-- The `frameImages` list built by `runwareGenerate` from a job's image paths:
clamp to at most 2 paths, then assign roles by position and style. -/
def buildFrameImages (style : String) (paths : List String) : List FrameImage :=
  let use := usePathsOf paths
  use.enum.map (fun pr => { path := pr.2, role := frameRole style use.length pr.1 })

/-- One entry of a Runware response `data` array, restricted to the fields the
source reads.  `none` models a field absent from the JSON object (or present
with a non-string value: the Go type assertion then yields `ok = false`). -/
structure ResultEntry where
  status : Option String
  videoURL : Option String
  message : Option String
deriving DecidableEq

/-- `status, _ := result["status"].(string)`: a missing/non-string status reads
as the empty string. -/
def statusOf (e : ResultEntry) : String := e.status.getD ""

/-- `videoURL, ok := result["videoURL"].(string); ok && videoURL != ""`:
the video URL, provided it is a present, non-empty string. -/
def urlOf (e : ResultEntry) : Option String :=
  match e.videoURL with
  | some u => if u = "" then none else some u
  | none => none

/-- The immediate-result scan over a submit response's `data` array: the first
entry with status `"success"` and a non-empty `videoURL`. -/
def findVideoURL : List ResultEntry → Option String
  | [] => none
  | e :: rest =>
    if statusOf e = "success" then
      match urlOf e with
      | some u => some u
      | none => findVideoURL rest
    else findVideoURL rest

/-- The scan over a poll response's `errors` array: the first entry whose
`message` is a present, non-empty string (`ok && msg != ""`). -/
def firstErrMsg : List (Option String) → Option String
  | [] => none
  | m :: rest =>
    match m with
    | some s => if s = "" then firstErrMsg rest else some s
    | none => firstErrMsg rest

/-- Outcome of one poll HTTP round-trip, as the source distinguishes them:
transport failure (`client.Do` error), a body `json.Unmarshal` rejects, or a
parsed body with its `errors` and `data` arrays. -/
inductive PollOutcome
  | transportErr (e : String)
  | badBody (e : String)
  | parsed (errors : List (Option String)) (data : List ResultEntry)
deriving DecidableEq

/-- What one iteration of the poll loop decides. -/
inductive PollStep
  | cont
  | failWith (msg : String)
  | completeWith (url : String)
deriving DecidableEq

/-- The `data`-array scan of the poll loop body: per entry, first the
success-with-video check, then the error check; other entries are skipped
(`status == "processing"` keeps polling). -/
def scanData : List ResultEntry → PollStep
  | [] => .cont
  | e :: rest =>
    if statusOf e = "success" ∧ (urlOf e).isSome then
      .completeWith ((urlOf e).getD "")
    else if statusOf e = "error" then
      .failWith (e.message.getD "Unknown error")
    else scanData rest

/-- One full iteration of the poll loop body of `pollResult`: transport errors
and unparseable bodies are swallowed (`continue`); otherwise the `errors`
array is checked first, then the `data` array. -/
def pollStep : PollOutcome → PollStep
  | .transportErr _ => .cont
  | .badBody _ => .cont
  | .parsed errs data =>
    match firstErrMsg errs with
    | some m => .failWith m
    | none => scanData data

/-- A mutation of the job record performed by the background task: exactly the
two mutators of the source, `completeJobWithVideo` and `setJobError`. -/
inductive Mutation
  | complete (remoteURL : String)
  | fail (msg : String)
deriving DecidableEq

/-- The `pollResult` loop: up to `fuel` further attempts (120 at entry), with
`used` attempts already consumed.  Returns the single terminal mutation the
loop performs together with the total number of poll requests made.  Exhausting
the budget fails the job with the timeout message. -/
def pollResult (polls : Nat → PollOutcome) : Nat → Nat → List Mutation × Nat
  | 0, used => ([.fail "Timed out waiting for video"], used)
  | fuel + 1, used =>
    match pollStep (polls used) with
    | .cont => pollResult polls fuel (used + 1)
    | .failWith m => ([.fail m], used + 1)
    | .completeWith u => ([.complete u], used + 1)

/-- Outcome of the submit HTTP round-trip of `runwareGenerate`. -/
inductive SubmitOutcome
  | transportErr (e : String)
  | httpErr (code : Int) (body : String)
  | badBody (e : String)
  | parsed (data : List ResultEntry)
deriving DecidableEq

/-- Outcome of the result-video download in `completeJobWithVideo`: local save
succeeded, or the HTTP GET / file create failed (in which case the remote URL
is kept). -/
inductive DownloadOutcome
  | ok
  | getFailed (e : String)
  | saveFailed (e : String)
deriving DecidableEq

/-- The effectful collaborators of one background task, made explicit:
file reads (`os.ReadFile`, content or error text), the submit response, the
stream of poll responses, and the download outcome. -/
structure RunInputs where
  readF : String → Except String String
  submit : SubmitOutcome
  polls : Nat → PollOutcome
  dl : DownloadOutcome

/-- The sequential image-read loop of `runwareGenerate`: index and error text
of the first path `os.ReadFile` fails on, if any. -/
def firstReadErr (readF : String → Except String String) : List String → Nat → Option (Nat × String)
  | [], _ => none
  | p :: rest, i =>
    match readF p with
    | .error e => some (i, e)
    | .ok _ => firstReadErr readF rest (i + 1)

/-- The control flow of `runwareGenerate` after job creation: clamp the image
list, read each image (first failure fails the job), submit (transport error,
non-200 status or unparseable body fails the job), take an immediate
success-with-video result if present, otherwise enter the poll loop.  Returns
the list of job mutations performed (in order) and the number of poll
requests made. -/
def runwareGenerate (job : Job) (inp : RunInputs) : List Mutation × Nat :=
  let use := usePathsOf job.imagePaths
  match firstReadErr inp.readF use 0 with
  | some (i, e) => ([.fail ("Failed to read image " ++ toString (i + 1) ++ ": " ++ e)], 0)
  | none =>
    match inp.submit with
    | .transportErr e => ([.fail ("Runware API error: " ++ e)], 0)
    | .httpErr code body => ([.fail ("Runware API " ++ toString code ++ ": " ++ body)], 0)
    | .badBody e => ([.fail ("Failed to parse response: " ++ e)], 0)
    | .parsed data =>
      match findVideoURL data with
      | some url => ([.complete url], 0)
      | none => pollResult inp.polls 120 0

/-- `setJobError` of the source: mark the job failed and record the message. -/
def setJobError (job : Job) (errMsg : String) : Job :=
  { job with status := .failed, error := errMsg }

/-- `completeJobWithVideo` of the source: download the artifact (on failure
keep the remote URL), mark the job completed and record the video reference. -/
def completeJobWithVideo (job : Job) (dl : DownloadOutcome) (remoteURL : String) : Job :=
  let localURL :=
    match dl with
    | .ok => "http://localhost:8080/videos/" ++ job.id ++ ".mp4"
    | .getFailed _ => remoteURL
    | .saveFailed _ => remoteURL
  { job with status := .completed, videoURL := localURL }

/-- Apply one mutation to the job record. -/
def applyMutation (dl : DownloadOutcome) (job : Job) : Mutation → Job
  | .complete url => completeJobWithVideo job dl url
  | .fail m => setJobError job m

/-- The successive states of the job record over one background task: the
created state followed by the state after each mutation the task performs. -/
def jobTrace (job : Job) (inp : RunInputs) : List Job :=
  List.scanl (applyMutation inp.dl) job (runwareGenerate job inp).1

/-- The final state of the job record after its background task. -/
def runFinal (job : Job) (inp : RunInputs) : Job :=
  List.foldl (applyMutation inp.dl) job (runwareGenerate job inp).1

/-- Number of poll requests the background task makes. -/
def pollsUsed (job : Job) (inp : RunInputs) : Nat :=
  (runwareGenerate job inp).2

/-- The decoded request body of `POST /api/generate`.  Absent JSON fields are
Go zero values (empty string/list, 0, false). -/
structure GenRequest where
  filenames : List String
  style : String
  ratio : String
  customPrompt : String
  count : Int
  duration : Int
  isContinuation : Bool
  lastFrameFilename : String
  originalFilenames : List String
deriving DecidableEq

/-- The non-continuation validation loop of `handleGenerate`: check each
filename exists under `uploads/` (first missing one rejects the request with
`"Image not found: <fn>"`), collecting the joined paths in order. -/
def checkFilenames (onDisk : String → Bool) : List String → Except String (List String)
  | [] => .ok []
  | fn :: rest =>
    if onDisk (uploads fn) then
      match checkFilenames onDisk rest with
      | .ok ps => .ok (uploads fn :: ps)
      | .error e => .error e
    else .error ("Image not found: " ++ fn)

/-- The image-path resolution of `handleGenerate`.  Continuation: the captured
last frame (must exist), plus — when the requested duration is at least 6 and
original filenames were supplied — the first original image (must exist) as a
closing anchor.  Otherwise: every supplied filename, each of which must
exist. -/
def resolveImagePaths (req : GenRequest) (onDisk : String → Bool) : Except String (List String) :=
  if req.isContinuation then
    let lastFramePath := uploads req.lastFrameFilename
    if onDisk lastFramePath then
      match req.originalFilenames with
      | [] => .ok [lastFramePath]
      | orig0 :: _ =>
        if 6 ≤ req.duration then
          let origPath := uploads orig0
          if onDisk origPath then .ok [lastFramePath, origPath]
          else .error "Original product image not found"
        else .ok [lastFramePath]
    else .error "Last frame image not found"
  else checkFilenames onDisk req.filenames

/-- The job-creation loop of `handleGenerate` once validation has passed:
resolve the style (lenient fallback), compose the final prompt, default the
ratio, default an out-of-range count to 4 and an out-of-range duration to 5,
then create one `processing` job per counted iteration. -/
def mkJobsFor (req : GenRequest) (imagePaths : List String) (ids : Nat → String)
    (now : String) : List Job :=
  let cfg := resolveStyle req.style
  let finalPrompt :=
    if req.customPrompt = "" then cfg.prompt else cfg.prompt ++ " " ++ req.customPrompt
  let ratio := if (ratioSizes.lookup req.ratio).isSome then req.ratio else "9:16"
  let count := if req.count < 1 ∨ 4 < req.count then 4 else req.count
  let dur := if req.duration < 1 ∨ 16 < req.duration then 5 else req.duration
  (List.range count.toNat).map (fun i =>
    { id := ids i, status := .processing, imagePaths := imagePaths,
      videoURL := "", prompt := finalPrompt, style := req.style, ratio := ratio,
      duration := dur, model := cfg.modelName, createdAt := now, error := "" : Job })

/-- `handleGenerate` of the source, up to job creation.  Inputs made explicit:
`onDisk` is `os.Stat` existence on the uploads directory, `ids` supplies the
i-th generated job ID (`uuid.New().String()[:12]`), `now` the creation
timestamp, `store` the current job store (insertion order).  On success,
returns the updated store together with the returned `job_ids`; on a
validation failure, the error message of the rejected request (the store is
untouched — no Job is created before validation completes). -/
def handleGenerate (req : GenRequest) (onDisk : String → Bool) (ids : Nat → String)
    (now : String) (store : List Job) : Except String (List Job × List String) :=
  if ¬ req.isContinuation ∧ req.filenames = [] then
    .error "filenames is required"
  else if req.isContinuation ∧ req.lastFrameFilename = "" then
    .error "last_frame_filename is required for continuation"
  else
    match resolveImagePaths req onDisk with
    | .error e => .error e
    | .ok imagePaths =>
      .ok (store ++ mkJobsFor req imagePaths ids now,
           (mkJobsFor req imagePaths ids now).map Job.id)

/-- The job store as left behind by `handleGenerate`: updated only when the
request is accepted. -/
def handleGenerateStore (req : GenRequest) (onDisk : String → Bool) (ids : Nat → String)
    (now : String) (store : List Job) : List Job :=
  match handleGenerate req onDisk ids now store with
  | .ok (store2, _) => store2
  | .error _ => store

/-- The effective variation count of `handleGenerate`: the requested count if
it lies in 1–4, otherwise the default 4. -/
def effCount (c : Int) : Nat :=
  (if c < 1 ∨ 4 < c then 4 else c).toNat

/-- A terminal job status. -/
def isTerminal (s : Status) : Prop := s = .completed ∨ s = .failed

/-- The `data`-array scan restricted to error entries: the effective error
message of the first entry with status `"error"` (its `message` when present
as a string, else `"Unknown error"`). -/
def firstDataErr : List ResultEntry → Option String
  | [] => none
  | e :: rest =>
    if statusOf e = "error" then some (e.message.getD "Unknown error")
    else firstDataErr rest

/-- A poll response reporting an explicit error for the task with effective
message `m`: either its `errors` array carries a non-empty message (the first
such being `m`), or — with a clean `errors` array — its `data` array carries an
entry with status `"error"` (the first such having effective message `m`)
while no entry reports success with a video URL. -/
def reportsErrorWith (p : PollOutcome) (m : String) : Prop :=
  ∃ errs data, p = .parsed errs data ∧
    (firstErrMsg errs = some m ∨
     (firstErrMsg errs = none ∧
      (∀ e ∈ data, ¬ (statusOf e = "success" ∧ (urlOf e).isSome)) ∧
      firstDataErr data = some m))

/-- A poll response reporting success without a video reference: no error
message in the `errors` array, and every result entry has status `"success"`
but no non-empty `videoURL`. -/
def successNoVideo (p : PollOutcome) : Prop :=
  ∃ errs data, p = .parsed errs data ∧ firstErrMsg errs = none ∧
    ∀ e ∈ data, statusOf e = "success" ∧ (urlOf e).isSome = false

/-- The variation-count policy as the specification states it: the requested
count clamped into the supported range 1–4. -/
def specClampedCount (c : Int) : Int :=
  if c < 1 then 1 else if 4 < c then 4 else c

/-- Number of job IDs a generate response returns (`none` when the request was
rejected). -/
def returnedCount (r : Except String (List Job × List String)) : Option Nat :=
  match r with
  | .ok (_, jids) => some jids.length
  | .error _ => none

/-- The provider frame list that would be built for the first job a generate
request created (`none` when no job was created). -/
def firstCreatedJobFrames (r : Except String (List Job × List String)) : Option (List FrameImage) :=
  match r with
  | .ok (job :: _, _) => some (buildFrameImages job.style job.imagePaths)
  | .ok ([], _) => none
  | .error _ => none

/-- A freshly created job record used to exercise the background-task driver. -/
def sampleJob : Job :=
  { id := "job1", status := .processing, imagePaths := ["uploads/a.jpg"],
    videoURL := "", prompt := "p", style := "cinematic", ratio := "9:16",
    duration := 5, model := "Veo 3.1 Fast", createdAt := "t", error := "" }

/-- A filesystem on which every read succeeds. -/
def okReadF : String → Except String String := fun _ => .ok "bytes"

/-- Driver inputs whose submit call fails with a transport error. -/
def submitFailInp : RunInputs :=
  { readF := okReadF, submit := .transportErr "net down",
    polls := fun _ => .transportErr "net down", dl := .ok }

/-- Driver inputs whose first poll response reports the error
`"quota exceeded"` in the `errors` array. -/
def quotaErrInp : RunInputs :=
  { readF := okReadF, submit := .parsed [],
    polls := fun _ => .parsed [some "quota exceeded"] [], dl := .ok }

/-- Driver inputs whose every poll round-trip fails at the transport level. -/
def allTransportErrInp : RunInputs :=
  { readF := okReadF, submit := .parsed [],
    polls := fun _ => .transportErr "net down", dl := .ok }

/-- Driver inputs whose every poll response carries a result with status
`"error"` and an explicitly empty `message` string. -/
def emptyMsgErrInp : RunInputs :=
  { readF := okReadF, submit := .parsed [],
    polls := fun _ => .parsed [] [{ status := some "error", videoURL := none, message := some "" }],
    dl := .ok }

/-- Driver inputs whose every poll response reports status `"success"` with no
`videoURL` field. -/
def successNoUrlInp : RunInputs :=
  { readF := okReadF, submit := .parsed [],
    polls := fun _ => .parsed [] [{ status := some "success", videoURL := none, message := none }],
    dl := .ok }

/-- A non-continuation generate request referencing a filename that does not
exist on disk. -/
def ghostReq : GenRequest :=
  { filenames := ["ghost.png"], style := "cinematic", ratio := "9:16", customPrompt := "",
    count := 1, duration := 5, isContinuation := false, lastFrameFilename := "",
    originalFilenames := [] }

/-- A valid non-continuation generate request asking for 2 variations. -/
def countTwoReq : GenRequest :=
  { filenames := ["a.jpg"], style := "cinematic", ratio := "9:16", customPrompt := "",
    count := 2, duration := 5, isContinuation := false, lastFrameFilename := "",
    originalFilenames := [] }

/-- A valid non-continuation generate request asking for 0 variations. -/
def countZeroReq : GenRequest :=
  { filenames := ["a.jpg"], style := "cinematic", ratio := "9:16", customPrompt := "",
    count := 0, duration := 5, isContinuation := false, lastFrameFilename := "",
    originalFilenames := [] }

/-- A continuation request in the reveal style (`"unboxing"`) whose requested
duration (5s) is below the anchor threshold, with an original image supplied. -/
def unboxContinuationReq : GenRequest :=
  { filenames := [], style := "unboxing", ratio := "9:16", customPrompt := "",
    count := 1, duration := 5, isContinuation := true, lastFrameFilename := "f.jpg",
    originalFilenames := ["o.jpg"] }

/-! ## Helper lemmas -/

theorem append_left_ne_empty (s t : String) (h : s ≠ "") : s ++ t ≠ "" := by
  intro he
  have hl := congrArg String.length he
  rw [String.length_append] at hl
  have h0 : ("" : String).length = 0 := rfl
  rw [h0] at hl
  have hs : s.length = 0 := by omega
  have : s = "" := by
    cases s with
    | mk l =>
      cases l with
      | nil => rfl
      | cons a as => simp [String.length] at hs
  exact h this

theorem buildFrameImages_single (style : String) (p : String) :
    buildFrameImages style [p] = [{ path := p, role := frameRole style 1 0 }] := by
  simp [buildFrameImages, usePathsOf, List.enum]

theorem buildFrameImages_pair (style : String) (p q : String) :
    buildFrameImages style [p, q] =
      [{ path := p, role := some .first }, { path := q, role := some .last }] := by
  by_cases h : style = "unboxing" <;>
    simp [buildFrameImages, usePathsOf, List.enum, List.enumFrom, frameRole, h]

theorem frameRole_single (style : String) :
    frameRole style 1 0 = some (if style = "unboxing" then FrameRole.last else FrameRole.first) := by
  by_cases h : style = "unboxing" <;> simp [frameRole, h]

theorem checkFilenames_err (onDisk : String → Bool) :
    ∀ l : List String, (∃ fn ∈ l, onDisk (uploads fn) = false) →
      ∃ m, checkFilenames onDisk l = .error m := by
  intro l
  induction l with
  | nil => rintro ⟨fn, hfn, _⟩; exact absurd hfn (List.not_mem_nil fn)
  | cons fn0 rest ih =>
    rintro ⟨fn, hfn, hmiss⟩
    by_cases h0 : onDisk (uploads fn0)
    · rcases List.mem_cons.mp hfn with heq | hrest
      · subst heq; rw [hmiss] at h0; exact absurd h0 (by simp)
      · rcases ih ⟨fn, hrest, hmiss⟩ with ⟨m, hm⟩
        exact ⟨m, by simp [checkFilenames, h0, hm]⟩
    · exact ⟨"Image not found: " ++ fn0, by simp [checkFilenames, h0]⟩

theorem pollResult_all_cont (polls : Nat → PollOutcome) :
    ∀ fuel used, (∀ j, j < fuel → pollStep (polls (used + j)) = .cont) →
      pollResult polls fuel used = ([.fail "Timed out waiting for video"], used + fuel) := by
  intro fuel
  induction fuel with
  | zero => intro used _; rfl
  | succ f ih =>
    intro used hall
    have h0 : pollStep (polls used) = .cont := by
      have := hall 0 (Nat.succ_pos f)
      simpa using this
    have hrest : ∀ j, j < f → pollStep (polls (used + 1 + j)) = .cont := by
      intro j hj
      have := hall (j + 1) (Nat.succ_lt_succ hj)
      have harr : used + (j + 1) = used + 1 + j := by omega
      rwa [harr] at this
    have := ih (used + 1) hrest
    have harr : used + 1 + f = used + (f + 1) := by omega
    rw [harr] at this
    simpa [pollResult, h0] using this

theorem pollResult_first_fail (polls : Nat → PollOutcome) :
    ∀ i fuel used m, i < fuel →
      (∀ j, j < i → pollStep (polls (used + j)) = .cont) →
      pollStep (polls (used + i)) = .failWith m →
      pollResult polls fuel used = ([.fail m], used + i + 1) := by
  intro i
  induction i with
  | zero =>
    intro fuel used m hlt _ hfail
    cases fuel with
    | zero => exact absurd hlt (by omega)
    | succ f =>
      have h0 : pollStep (polls used) = .failWith m := by rwa [Nat.add_zero] at hfail
      simp [pollResult, h0]
  | succ i ih =>
    intro fuel used m hlt hpre hfail
    cases fuel with
    | zero => exact absurd hlt (by omega)
    | succ f =>
      have h0 : pollStep (polls used) = .cont := by
        have := hpre 0 (Nat.succ_pos i)
        simpa using this
      have hpre2 : ∀ j, j < i → pollStep (polls (used + 1 + j)) = .cont := by
        intro j hj
        have := hpre (j + 1) (Nat.succ_lt_succ hj)
        have harr : used + (j + 1) = used + 1 + j := by omega
        rwa [harr] at this
      have hfail2 : pollStep (polls (used + 1 + i)) = .failWith m := by
        have harr : used + (i + 1) = used + 1 + i := by omega
        rwa [harr] at hfail
      have := ih f (used + 1) m (by omega) hpre2 hfail2
      have harr : used + 1 + i + 1 = used + (i + 1) + 1 := by omega
      rw [harr] at this
      simpa [pollResult, h0] using this

theorem pollResult_single (polls : Nat → PollOutcome) :
    ∀ fuel used, ∃ m, (pollResult polls fuel used).1 = [m] := by
  intro fuel
  induction fuel with
  | zero => intro used; exact ⟨.fail "Timed out waiting for video", rfl⟩
  | succ f ih =>
    intro used
    cases h : pollStep (polls used) with
    | cont => rcases ih (used + 1) with ⟨m, hm⟩; exact ⟨m, by simpa [pollResult, h] using hm⟩
    | failWith m => exact ⟨.fail m, by simp [pollResult, h]⟩
    | completeWith u => exact ⟨.complete u, by simp [pollResult, h]⟩

theorem pollResult_fail_msg (polls : Nat → PollOutcome) :
    ∀ fuel used m, (pollResult polls fuel used).1 = [.fail m] →
      m = "Timed out waiting for video" ∨
        ∃ i, used ≤ i ∧ i < used + fuel ∧ pollStep (polls i) = .failWith m := by
  intro fuel
  induction fuel with
  | zero =>
    intro used m hm
    left
    have : Mutation.fail "Timed out waiting for video" = Mutation.fail m := by
      simpa [pollResult] using hm
    cases this; rfl
  | succ f ih =>
    intro used m hm
    cases h : pollStep (polls used) with
    | cont =>
      rw [show pollResult polls (f + 1) used = pollResult polls f (used + 1) by
        simp [pollResult, h]] at hm
      rcases ih (used + 1) m hm with ht | ⟨i, hi1, hi2, hi3⟩
      · exact Or.inl ht
      · exact Or.inr ⟨i, by omega, by omega, hi3⟩
    | failWith m0 =>
      have : Mutation.fail m0 = Mutation.fail m := by simpa [pollResult, h] using hm
      cases this
      exact Or.inr ⟨used, Nat.le_refl used, by omega, h⟩
    | completeWith u => simp [pollResult, h] at hm

theorem firstErrMsg_ne_empty :
    ∀ l : List (Option String), ∀ m, firstErrMsg l = some m → m ≠ "" := by
  intro l
  induction l with
  | nil => intro m hm; simp [firstErrMsg] at hm
  | cons e rest ih =>
    intro m hm
    cases e with
    | none => exact ih m (by simpa [firstErrMsg] using hm)
    | some s =>
      by_cases hs : s = ""
      · exact ih m (by simpa [firstErrMsg, hs] using hm)
      · have : s = m := by simpa [firstErrMsg, hs] using hm
        subst this; exact hs

theorem scanData_fail :
    ∀ data : List ResultEntry, ∀ m, scanData data = .failWith m →
      ∃ e ∈ data, statusOf e = "error" ∧ e.message.getD "Unknown error" = m := by
  intro data
  induction data with
  | nil => intro m hm; simp [scanData] at hm
  | cons e rest ih =>
    intro m hm
    by_cases h1 : statusOf e = "success" ∧ (urlOf e).isSome
    · simp [scanData, h1] at hm
    · by_cases h2 : statusOf e = "error"
      · have : e.message.getD "Unknown error" = m := by
          have := hm
          simp only [scanData, if_neg h1, if_pos h2] at this
          cases this; rfl
        exact ⟨e, List.mem_cons_self e rest, h2, this⟩
      · rcases ih m (by simpa [scanData, h1, h2] using hm) with ⟨e2, he2, hp⟩
        exact ⟨e2, List.mem_cons_of_mem e he2, hp⟩

theorem scanData_of_err :
    ∀ data : List ResultEntry, ∀ m,
      (∀ e ∈ data, ¬ (statusOf e = "success" ∧ (urlOf e).isSome)) →
      firstDataErr data = some m →
      scanData data = .failWith m := by
  intro data
  induction data with
  | nil => intro m _ hm; simp [firstDataErr] at hm
  | cons e rest ih =>
    intro m hnos hm
    have h1 : ¬ (statusOf e = "success" ∧ (urlOf e).isSome) :=
      hnos e (List.mem_cons_self e rest)
    by_cases h2 : statusOf e = "error"
    · have : some (e.message.getD "Unknown error") = some m := by
        simpa [firstDataErr, h2] using hm
      cases this
      simp [scanData, h1, h2]
    · have hm2 : firstDataErr rest = some m := by simpa [firstDataErr, h2] using hm
      have := ih m (fun e2 he2 => hnos e2 (List.mem_cons_of_mem e he2)) hm2
      simpa [scanData, h1, h2] using this

theorem scanData_all_success_nourl :
    ∀ data : List ResultEntry,
      (∀ e ∈ data, statusOf e = "success" ∧ (urlOf e).isSome = false) →
      scanData data = .cont := by
  intro data
  induction data with
  | nil => intro _; rfl
  | cons e rest ih =>
    intro hall
    rcases hall e (List.mem_cons_self e rest) with ⟨hsucc, hnourl⟩
    have h1 : ¬ (statusOf e = "success" ∧ (urlOf e).isSome) := by
      rintro ⟨_, hu⟩; rw [hnourl] at hu; exact Bool.false_ne_true hu
    have h2 : ¬ statusOf e = "error" := by
      rw [hsucc]; decide
    have := ih (fun e2 he2 => hall e2 (List.mem_cons_of_mem e he2))
    simpa [scanData, h1, h2] using this

theorem pollStep_fail_shape :
    ∀ p m, pollStep p = .failWith m →
      ∃ errs data, p = .parsed errs data ∧
        (firstErrMsg errs = some m ∨
         ∃ e ∈ data, statusOf e = "error" ∧ e.message.getD "Unknown error" = m) := by
  intro p m hp
  cases p with
  | transportErr e => simp [pollStep] at hp
  | badBody e => simp [pollStep] at hp
  | parsed errs data =>
    refine ⟨errs, data, rfl, ?_⟩
    cases herr : firstErrMsg errs with
    | some m0 =>
      have : PollStep.failWith m0 = PollStep.failWith m := by
        simpa [pollStep, herr] using hp
      cases this
      exact Or.inl rfl
    | none =>
      have : scanData data = .failWith m := by simpa [pollStep, herr] using hp
      exact Or.inr (scanData_fail data m this)

theorem pollStep_of_reportsError :
    ∀ p m, reportsErrorWith p m → pollStep p = .failWith m := by
  intro p m hp
  rcases hp with ⟨errs, data, rfl, herr | ⟨hclean, hnos, hdata⟩⟩
  · simp [pollStep, herr]
  · simp [pollStep, hclean, scanData_of_err data m hnos hdata]

theorem pollStep_of_successNoVideo :
    ∀ p, successNoVideo p → pollStep p = .cont := by
  intro p hp
  rcases hp with ⟨errs, data, rfl, hclean, hall⟩
  simp [pollStep, hclean, scanData_all_success_nourl data hall]

theorem runwareGenerate_poll (job : Job) (inp : RunInputs) (data : List ResultEntry)
    (hread : firstReadErr inp.readF (usePathsOf job.imagePaths) 0 = none)
    (hsub : inp.submit = .parsed data)
    (himm : findVideoURL data = none) :
    runwareGenerate job inp = pollResult inp.polls 120 0 := by
  simp [runwareGenerate, hread, hsub, himm]

theorem runwareGenerate_single (job : Job) (inp : RunInputs) :
    ∃ m, (runwareGenerate job inp).1 = [m] := by
  unfold runwareGenerate
  cases hread : firstReadErr inp.readF (usePathsOf job.imagePaths) 0 with
  | some pr =>
    exact ⟨.fail ("Failed to read image " ++ toString (pr.1 + 1) ++ ": " ++ pr.2),
      by simp [hread]⟩
  | none =>
    cases hsub : inp.submit with
    | transportErr e => exact ⟨.fail ("Runware API error: " ++ e), by simp [hread, hsub]⟩
    | httpErr code body =>
      exact ⟨.fail ("Runware API " ++ toString code ++ ": " ++ body), by simp [hread, hsub]⟩
    | badBody e => exact ⟨.fail ("Failed to parse response: " ++ e), by simp [hread, hsub]⟩
    | parsed data =>
      cases himm : findVideoURL data with
      | some url => exact ⟨.complete url, by simp [hread, hsub, himm]⟩
      | none => simpa [hread, hsub, himm] using pollResult_single inp.polls 120 0

theorem runFinal_of_run (job : Job) (inp : RunInputs) (m : Mutation) (k : Nat)
    (h : runwareGenerate job inp = ([m], k)) :
    runFinal job inp = applyMutation inp.dl job m ∧ pollsUsed job inp = k := by
  constructor
  · simp [runFinal, h]
  · simp [pollsUsed, h]

theorem mkJobsFor_length (req : GenRequest) (paths : List String) (ids : Nat → String)
    (now : String) : (mkJobsFor req paths ids now).length = effCount req.count := by
  simp [mkJobsFor, effCount]

theorem mkJobsFor_mem (req : GenRequest) (paths : List String) (ids : Nat → String)
    (now : String) (job : Job) (h : job ∈ mkJobsFor req paths ids now) :
    job.imagePaths = paths ∧ job.style = req.style := by
  simp only [mkJobsFor, List.mem_map, List.mem_range] at h
  obtain ⟨i, _, rfl⟩ := h
  exact ⟨rfl, rfl⟩

theorem handleGenerate_ok (req : GenRequest) (onDisk : String → Bool) (ids : Nat → String)
    (now : String) (store store2 : List Job) (jids : List String)
    (h : handleGenerate req onDisk ids now store = .ok (store2, jids)) :
    ∃ paths, resolveImagePaths req onDisk = .ok paths ∧
      store2 = store ++ mkJobsFor req paths ids now ∧
      jids = (mkJobsFor req paths ids now).map Job.id := by
  unfold handleGenerate at h
  by_cases hg1 : ¬ req.isContinuation ∧ req.filenames = []
  · rw [if_pos hg1] at h; exact absurd h (by simp)
  · rw [if_neg hg1] at h
    by_cases hg2 : req.isContinuation ∧ req.lastFrameFilename = ""
    · rw [if_pos hg2] at h; exact absurd h (by simp)
    · rw [if_neg hg2] at h
      cases hres : resolveImagePaths req onDisk with
      | error e => rw [hres] at h; exact absurd h (by simp)
      | ok paths =>
        rw [hres] at h
        injection h with h2
        injection h2 with h3 h4
        exact ⟨paths, rfl, h3.symm, h4.symm⟩

theorem resolveImagePaths_cont (req : GenRequest) (onDisk : String → Bool)
    (paths : List String) (hcont : req.isContinuation = true)
    (h : resolveImagePaths req onDisk = .ok paths) :
    (paths = [uploads req.lastFrameFilename] ∧ (req.originalFilenames = [] ∨ req.duration < 6)) ∨
    (∃ orig0 rest, req.originalFilenames = orig0 :: rest ∧ 6 ≤ req.duration ∧
      paths = [uploads req.lastFrameFilename, uploads orig0]) := by
  unfold resolveImagePaths at h
  rw [hcont] at h
  simp only [if_true, eq_self_iff_true] at h
  by_cases hod : onDisk (uploads req.lastFrameFilename)
  · rw [if_pos hod] at h
    cases horig : req.originalFilenames with
    | nil =>
      rw [horig] at h
      injection h with h2
      exact Or.inl ⟨h2.symm, Or.inl rfl⟩
    | cons orig0 rest =>
      rw [horig] at h
      dsimp only [] at h
      by_cases hdur : 6 ≤ req.duration
      · rw [if_pos hdur] at h
        by_cases hod2 : onDisk (uploads orig0)
        · rw [if_pos hod2] at h
          injection h with h2
          exact Or.inr ⟨orig0, rest, rfl, hdur, h2.symm⟩
        · rw [if_neg hod2] at h; exact absurd h (by simp)
      · rw [if_neg hdur] at h
        injection h with h2
        exact Or.inl ⟨h2.symm, Or.inr (by omega)⟩
  · rw [if_neg hod] at h; exact absurd h (by simp)

/-! ## Claims -/

/-- C1: once a Job's status has reached a terminal value (`completed` or
`failed`), no subsequent operation of the system changes it again: along the
trace of job states produced by a background task on a freshly created
(`processing`) job, any state following a terminal state has the same
status — there is no terminal→`processing` and no terminal→terminal
transition. -/
theorem claim_c1_terminal_status_never_changes (job : Job) (inp : RunInputs)
    (hproc : job.status = .processing) :
    ∀ i j si sj, i ≤ j →
      (jobTrace job inp).get? i = some si →
      (jobTrace job inp).get? j = some sj →
      isTerminal si.status → sj.status = si.status := by
  obtain ⟨m, hm⟩ := runwareGenerate_single job inp
  have ht : jobTrace job inp = [job, applyMutation inp.dl job m] := by
    simp [jobTrace, hm]
  intro i j si sj hij hi hj hterm
  rw [ht] at hi hj
  cases i with
  | zero =>
    have hsi : job = si := by simpa using hi
    rw [← hsi, hproc] at hterm
    rcases hterm with h | h <;> exact Status.noConfusion h
  | succ i1 =>
    cases i1 with
    | zero =>
      have hsi : applyMutation inp.dl job m = si := by simpa using hi
      cases j with
      | zero => omega
      | succ j1 =>
        cases j1 with
        | zero =>
          have hsj : applyMutation inp.dl job m = sj := by simpa using hj
          rw [← hsi, ← hsj]
        | succ j2 => simp at hj
    | succ i2 => simp at hi

/-- Witness for C1: a job whose submit call fails transitions
`processing` → `failed`, and the trace state at a terminal position keeps its
status. -/
theorem claim_c1_witness :
    sampleJob.status = .processing ∧
    (jobTrace sampleJob submitFailInp).get? 1 =
      some (setJobError sampleJob "Runware API error: net down") ∧
    (setJobError sampleJob "Runware API error: net down").status =
      (setJobError sampleJob "Runware API error: net down").status :=
  ⟨rfl, rfl,
    claim_c1_terminal_status_never_changes sampleJob submitFailInp rfl 1 1
      (setJobError sampleJob "Runware API error: net down")
      (setJobError sampleJob "Runware API error: net down")
      (Nat.le_refl 1) rfl rfl (Or.inr rfl)⟩

/-- C5: frame role assignment.  For the reveal style (`unboxing`) a single
supplied image gets role `last`; for every other style a single image gets
role `first`; with exactly two images every style assigns the first image
role `first` and the second role `last`. -/
theorem claim_c5_frame_roles (style p q : String) :
    buildFrameImages "unboxing" [p] = [{ path := p, role := some FrameRole.last }] ∧
    (style ≠ "unboxing" →
      buildFrameImages style [p] = [{ path := p, role := some FrameRole.first }]) ∧
    buildFrameImages style [p, q] =
      [{ path := p, role := some FrameRole.first }, { path := q, role := some FrameRole.last }] := by
  refine ⟨?_, ?_, buildFrameImages_pair style p q⟩
  · rw [buildFrameImages_single]
    have : frameRole "unboxing" 1 0 = some FrameRole.last := rfl
    rw [this]
  · intro h
    rw [buildFrameImages_single, frameRole_single]
    simp [h]

/-- Witness for C5: the non-reveal branch at style `cinematic`. -/
theorem claim_c5_witness :
    ("cinematic" : String) ≠ "unboxing" ∧
    buildFrameImages "cinematic" ["a"] = [{ path := "a", role := some FrameRole.first }] :=
  ⟨by decide, (claim_c5_frame_roles "cinematic" "a" "b").2.1 (by decide)⟩

/-- C7: with more than 2 images, the frame list submitted to the provider has
exactly 2 frames — the first input image with role `first` and the last input
image with role `last` — and the clamp is recorded only as an informational
log event, never as an error. -/
theorem claim_c7_clamp_to_two (style : String) (paths : List String)
    (h : 2 < paths.length) :
    ∃ a b, paths.head? = some a ∧ paths.getLast? = some b ∧
      buildFrameImages style paths =
        [{ path := a, role := some FrameRole.first }, { path := b, role := some FrameRole.last }] ∧
      (buildFrameImages style paths).length = 2 ∧
      clampEvents paths =
        [.info ("Clamped " ++ toString paths.length ++ " images → 2 (first + last)")] ∧
      ∀ ev ∈ clampEvents paths, ev.isErr = false := by
  cases paths with
  | nil => simp at h
  | cons p rest =>
    have hne := List.cons_ne_nil p rest
    have h2 : usePathsOf (p :: rest) = [p, (p :: rest).getLast hne] := by
      unfold usePathsOf
      rw [if_pos h]
    have key : buildFrameImages style (p :: rest) =
        buildFrameImages style [p, (p :: rest).getLast hne] := by
      simp only [buildFrameImages]
      rw [h2]
      rfl
    refine ⟨p, (p :: rest).getLast hne, rfl, ?_, ?_, ?_, ?_, ?_⟩
    · exact (List.getLast?_eq_getLast _ hne)
    · rw [key, buildFrameImages_pair]
    · rw [key, buildFrameImages_pair]
      rfl
    · unfold clampEvents
      rw [if_pos h]
    · intro ev hev
      unfold clampEvents at hev
      rw [if_pos h] at hev
      have : ev = .info ("Clamped " ++ toString (p :: rest).length ++ " images → 2 (first + last)") := by
        simpa using hev
      rw [this]
      rfl

/-- Witness for C7: three images are clamped to the first and the last. -/
theorem claim_c7_witness :
    2 < (["a", "b", "c"] : List String).length ∧
    buildFrameImages "cinematic" ["a", "b", "c"] =
      [{ path := "a", role := some FrameRole.first },
       { path := "c", role := some FrameRole.last }] := by
  refine ⟨by decide, ?_⟩
  obtain ⟨a, b, ha, hb, hfr, _, _, _⟩ :=
    claim_c7_clamp_to_two "cinematic" ["a", "b", "c"] (by decide)
  have ha2 : a = "a" := by simpa using ha.symm
  have hb2 : b = "c" := by simpa using hb.symm
  rw [ha2, hb2] at hfr
  exact hfr

/-- C3: a generation request referencing an image filename that does not exist
on disk (or, for a continuation, whose mandatory captured-frame filename is
missing or absent on disk) is rejected synchronously and the Job Store is left
unchanged — no Job is created. -/
theorem claim_c3_reject_before_any_job (req : GenRequest) (onDisk : String → Bool)
    (ids : Nat → String) (now : String) (store : List Job)
    (hbad : (req.isContinuation = false ∧ ∃ fn ∈ req.filenames, onDisk (uploads fn) = false)
          ∨ (req.isContinuation = true ∧
             (req.lastFrameFilename = "" ∨ onDisk (uploads req.lastFrameFilename) = false))) :
    (∃ m, handleGenerate req onDisk ids now store = .error m) ∧
    handleGenerateStore req onDisk ids now store = store := by
  have herr : ∃ m, handleGenerate req onDisk ids now store = .error m := by
    rcases hbad with ⟨hcont, fn, hfn, hmiss⟩ | ⟨hcont, hlf⟩
    · have hne : req.filenames ≠ [] := by
        intro he; rw [he] at hfn; exact List.not_mem_nil fn hfn
      have hg1 : ¬ (¬ req.isContinuation ∧ req.filenames = []) := by
        rintro ⟨_, he⟩; exact hne he
      have hg2 : ¬ (req.isContinuation ∧ req.lastFrameFilename = "") := by
        rintro ⟨hc, _⟩
        rw [hcont] at hc
        exact Bool.false_ne_true hc
      obtain ⟨m, hm⟩ := checkFilenames_err onDisk req.filenames ⟨fn, hfn, hmiss⟩
      refine ⟨m, ?_⟩
      unfold handleGenerate
      rw [if_neg hg1, if_neg hg2]
      have hres : resolveImagePaths req onDisk = .error m := by
        unfold resolveImagePaths
        rw [hcont]
        simpa using hm
      rw [hres]
    · have hg1 : ¬ (¬ req.isContinuation ∧ req.filenames = []) := by
        rintro ⟨hnc, _⟩
        rw [hcont] at hnc
        exact hnc rfl
      by_cases hemp : req.lastFrameFilename = ""
      · refine ⟨"last_frame_filename is required for continuation", ?_⟩
        unfold handleGenerate
        rw [if_neg hg1, if_pos ⟨by rw [hcont], hemp⟩]
      · have hmiss : onDisk (uploads req.lastFrameFilename) = false := by
          rcases hlf with h | h
          · exact absurd h hemp
          · exact h
        refine ⟨"Last frame image not found", ?_⟩
        unfold handleGenerate
        rw [if_neg hg1, if_neg (fun hc => hemp hc.2)]
        have hres : resolveImagePaths req onDisk = .error "Last frame image not found" := by
          unfold resolveImagePaths
          rw [hcont]
          simp [hmiss]
        rw [hres]
  obtain ⟨m, hm⟩ := herr
  exact ⟨⟨m, hm⟩, by simp [handleGenerateStore, hm]⟩

/-- Witness for C3: a request referencing `ghost.png` on an empty disk is
rejected and the store stays empty. -/
theorem claim_c3_witness :
    (∃ m, handleGenerate ghostReq (fun _ => false) (fun i => toString i) "t" [] = .error m) ∧
    handleGenerateStore ghostReq (fun _ => false) (fun i => toString i) "t" [] = [] :=
  claim_c3_reject_before_any_job ghostReq (fun _ => false) (fun i => toString i) "t" []
    (Or.inl ⟨rfl, "ghost.png", List.mem_cons_self _ _, rfl⟩)

/-- C4 (amended): the number of Jobs created and of job IDs returned equals
the requested count when it lies in 1–4, and the default 4 — not a clamped
value — when the requested count is outside that range. -/
theorem claim_c4_amended_count_created (req : GenRequest) (onDisk : String → Bool)
    (ids : Nat → String) (now : String) (store store2 : List Job) (jids : List String)
    (h : handleGenerate req onDisk ids now store = .ok (store2, jids)) :
    jids.length = effCount req.count ∧
    ∃ jobsNew, store2 = store ++ jobsNew ∧ jobsNew.length = effCount req.count := by
  obtain ⟨paths, _, h2, h3⟩ := handleGenerate_ok req onDisk ids now store store2 jids h
  refine ⟨?_, mkJobsFor req paths ids now, h2, mkJobsFor_length req paths ids now⟩
  rw [h3, List.length_map, mkJobsFor_length]

/-- Counterexample for C4: a valid request with requested count 0 creates 4
jobs (the default), while clamping into 1–4 as the claim states would give
1. -/
theorem claim_c4_counterexample :
    returnedCount (handleGenerate countZeroReq (fun _ => true) (fun i => toString i) "t" []) =
      some 4 ∧
    specClampedCount countZeroReq.count = 1 ∧
    (4 : Nat) ≠ (specClampedCount countZeroReq.count).toNat :=
  ⟨rfl, rfl, by decide⟩

/-- Witness for C4 (amended): an in-range requested count of 2 yields exactly
2 job IDs. -/
theorem claim_c4_witness :
    handleGenerate countTwoReq (fun _ => true) (fun i => toString i) "t" [] =
      .ok ([] ++ mkJobsFor countTwoReq [uploads "a.jpg"] (fun i => toString i) "t",
           (mkJobsFor countTwoReq [uploads "a.jpg"] (fun i => toString i) "t").map Job.id) ∧
    ((mkJobsFor countTwoReq [uploads "a.jpg"] (fun i => toString i) "t").map Job.id).length =
      effCount countTwoReq.count ∧
    effCount countTwoReq.count = 2 :=
  ⟨rfl,
   (claim_c4_amended_count_created countTwoReq (fun _ => true) (fun i => toString i) "t" []
      _ _ rfl).1,
   rfl⟩

/-- C6 (amended): for an accepted continuation request, an original anchor
image is appended with role `last` exactly when the requested duration is at
least 6 and an original image is supplied (and then the captured frame gets
role `first`); otherwise the continuation has the captured frame as its only
frame, whose role is `first` — except for the reveal style (`unboxing`),
whose single-image override assigns it role `last`. -/
theorem claim_c6_amended_continuation_frames (req : GenRequest) (onDisk : String → Bool)
    (ids : Nat → String) (now : String) (store store2 : List Job) (jids : List String)
    (hcont : req.isContinuation = true)
    (h : handleGenerate req onDisk ids now store = .ok (store2, jids)) :
    ∃ jobsNew, store2 = store ++ jobsNew ∧
      ∀ job ∈ jobsNew,
        ((∃ orig0 rest, req.originalFilenames = orig0 :: rest ∧ 6 ≤ req.duration ∧
            buildFrameImages job.style job.imagePaths =
              [{ path := uploads req.lastFrameFilename, role := some FrameRole.first },
               { path := uploads orig0, role := some FrameRole.last }]) ∨
         ((req.originalFilenames = [] ∨ req.duration < 6) ∧
            buildFrameImages job.style job.imagePaths =
              [{ path := uploads req.lastFrameFilename,
                 role := some (if req.style = "unboxing" then FrameRole.last
                               else FrameRole.first) }])) := by
  obtain ⟨paths, hres, h2, _⟩ := handleGenerate_ok req onDisk ids now store store2 jids h
  refine ⟨mkJobsFor req paths ids now, h2, ?_⟩
  intro job hjob
  obtain ⟨hip, hst⟩ := mkJobsFor_mem req paths ids now job hjob
  rcases resolveImagePaths_cont req onDisk paths hcont hres with
    ⟨hp, hside⟩ | ⟨orig0, rest, horig, hdur, hp⟩
  · right
    refine ⟨hside, ?_⟩
    rw [hip, hp, hst, buildFrameImages_single, frameRole_single]
  · left
    refine ⟨orig0, rest, horig, hdur, ?_⟩
    rw [hip, hp, hst, buildFrameImages_pair]

/-- Counterexample for C6: a reveal-style (`unboxing`) continuation of 5
seconds — below the anchor threshold — assigns the captured last frame role
`last`, not `first` as the claim states. -/
theorem claim_c6_counterexample :
    unboxContinuationReq.isContinuation = true ∧
    firstCreatedJobFrames
        (handleGenerate unboxContinuationReq (fun _ => true) (fun i => toString i) "t" []) =
      some [{ path := uploads "f.jpg", role := some FrameRole.last }] ∧
    some FrameRole.last ≠ some FrameRole.first :=
  ⟨rfl, rfl, by decide⟩

/-- Witness for C6 (amended): the `unboxing` continuation below the threshold
falls into the no-anchor branch with the reveal-override role. -/
theorem claim_c6_witness :
    unboxContinuationReq.isContinuation = true ∧
    (∃ jobsNew,
      [] ++ mkJobsFor unboxContinuationReq [uploads "f.jpg"] (fun i => toString i) "t" =
        [] ++ jobsNew ∧
      ∀ job ∈ jobsNew,
        ((∃ orig0 rest, unboxContinuationReq.originalFilenames = orig0 :: rest ∧
            6 ≤ unboxContinuationReq.duration ∧
            buildFrameImages job.style job.imagePaths =
              [{ path := uploads unboxContinuationReq.lastFrameFilename,
                 role := some FrameRole.first },
               { path := uploads orig0, role := some FrameRole.last }]) ∨
         ((unboxContinuationReq.originalFilenames = [] ∨ unboxContinuationReq.duration < 6) ∧
            buildFrameImages job.style job.imagePaths =
              [{ path := uploads unboxContinuationReq.lastFrameFilename,
                 role := some (if unboxContinuationReq.style = "unboxing" then FrameRole.last
                               else FrameRole.first) }]))) :=
  ⟨rfl,
   claim_c6_amended_continuation_frames unboxContinuationReq (fun _ => true)
     (fun i => toString i) "t" [] _ _ rfl rfl⟩

/-- C2: if, during the poll loop, a poll response reports an explicit error
for the task — a non-empty message in the `errors` array, or a result with
status `"error"` (with no result in the same response reporting success with a
video) — then the job transitions to `failed` immediately with that message as
its error text, and no further poll requests are made: exactly `i + 1` polls
happen when the error arrives on attempt `i`. -/
theorem claim_c2_provider_error_fail_fast (job : Job) (inp : RunInputs)
    (data : List ResultEntry) (i : Nat) (m : String)
    (hread : firstReadErr inp.readF (usePathsOf job.imagePaths) 0 = none)
    (hsub : inp.submit = .parsed data)
    (himm : findVideoURL data = none)
    (hi : i < 120)
    (hpre : ∀ j, j < i → pollStep (inp.polls j) = .cont)
    (herr : reportsErrorWith (inp.polls i) m) :
    (runFinal job inp).status = .failed ∧
    (runFinal job inp).error = m ∧
    pollsUsed job inp = i + 1 := by
  have hstep : pollStep (inp.polls i) = .failWith m := pollStep_of_reportsError _ _ herr
  have hrun : runwareGenerate job inp = ([.fail m], i + 1) := by
    rw [runwareGenerate_poll job inp data hread hsub himm]
    have := pollResult_first_fail inp.polls i 120 0 m hi
      (by intro j hj; simpa using hpre j hj) (by simpa using hstep)
    simpa using this
  obtain ⟨h1, h2⟩ := runFinal_of_run job inp (.fail m) (i + 1) hrun
  rw [h1]
  exact ⟨rfl, rfl, h2⟩

/-- Witness for C2: the spec scenario — the first poll reports
`"quota exceeded"` in the `errors` array; the job fails with exactly that
message after a single poll request. -/
theorem claim_c2_witness :
    (runFinal sampleJob quotaErrInp).status = .failed ∧
    (runFinal sampleJob quotaErrInp).error = "quota exceeded" ∧
    pollsUsed sampleJob quotaErrInp = 1 :=
  claim_c2_provider_error_fail_fast sampleJob quotaErrInp [] 0 "quota exceeded"
    rfl rfl rfl (by decide) (fun j hj => absurd hj (Nat.not_lt_zero j))
    ⟨[some "quota exceeded"], [], rfl, Or.inl rfl⟩

/-- C8: if no poll attempt out of the budget of 120 (5-second interval)
decides the job — in particular, transport errors and unparseable bodies only
consume attempts — the job fails with the timeout message after exactly 120
poll requests. -/
theorem claim_c8_timeout_after_budget (job : Job) (inp : RunInputs)
    (data : List ResultEntry)
    (hread : firstReadErr inp.readF (usePathsOf job.imagePaths) 0 = none)
    (hsub : inp.submit = .parsed data)
    (himm : findVideoURL data = none)
    (hall : ∀ i, i < 120 → pollStep (inp.polls i) = .cont) :
    (runFinal job inp).status = .failed ∧
    (runFinal job inp).error = "Timed out waiting for video" ∧
    pollsUsed job inp = 120 ∧
    (∀ e, pollStep (.transportErr e) = .cont) ∧
    (∀ e, pollStep (.badBody e) = .cont) := by
  have hrun : runwareGenerate job inp = ([.fail "Timed out waiting for video"], 120) := by
    rw [runwareGenerate_poll job inp data hread hsub himm]
    have := pollResult_all_cont inp.polls 120 0 (by intro j hj; simpa using hall j hj)
    simpa using this
  obtain ⟨h1, h2⟩ := runFinal_of_run job inp _ _ hrun
  rw [h1]
  exact ⟨rfl, rfl, h2, fun e => rfl, fun e => rfl⟩

/-- Witness for C8: every poll round-trip fails at the transport level; the
job times out after 120 polls. -/
theorem claim_c8_witness :
    (runFinal sampleJob allTransportErrInp).status = .failed ∧
    (runFinal sampleJob allTransportErrInp).error = "Timed out waiting for video" ∧
    pollsUsed sampleJob allTransportErrInp = 120 :=
  (fun h => ⟨h.1, h.2.1, h.2.2.1⟩)
    (claim_c8_timeout_after_budget sampleJob allTransportErrInp [] rfl rfl rfl
      (fun _ _ => rfl))

/-- C10: a poll response reporting success without a non-empty `videoURL` does
not complete the job — the loop continues — so a provider that forever reports
success without a video reference drives the job to `failed` with the timeout
message once the budget is exhausted. -/
theorem claim_c10_success_without_video_keeps_polling (job : Job) (inp : RunInputs)
    (data : List ResultEntry)
    (hread : firstReadErr inp.readF (usePathsOf job.imagePaths) 0 = none)
    (hsub : inp.submit = .parsed data)
    (himm : findVideoURL data = none)
    (hall : ∀ i, i < 120 → successNoVideo (inp.polls i)) :
    (∀ p, successNoVideo p → pollStep p = .cont) ∧
    (runFinal job inp).status = .failed ∧
    (runFinal job inp).error = "Timed out waiting for video" := by
  have hrun : runwareGenerate job inp = ([.fail "Timed out waiting for video"], 120) := by
    rw [runwareGenerate_poll job inp data hread hsub himm]
    have := pollResult_all_cont inp.polls 120 0
      (by intro j hj; simpa using pollStep_of_successNoVideo _ (hall j (by simpa using hj)))
    simpa using this
  obtain ⟨h1, _⟩ := runFinal_of_run job inp _ _ hrun
  rw [h1]
  exact ⟨pollStep_of_successNoVideo, rfl, rfl⟩

/-- Witness for C10: every poll response has a single result with status
`"success"` and no `videoURL`; the job ends failed with the timeout message. -/
theorem claim_c10_witness :
    (runFinal sampleJob successNoUrlInp).status = .failed ∧
    (runFinal sampleJob successNoUrlInp).error = "Timed out waiting for video" :=
  (claim_c10_success_without_video_keeps_polling sampleJob successNoUrlInp [] rfl rfl rfl
    (fun _ _ =>
      ⟨[], [{ status := some "success", videoURL := none, message := none }], rfl, rfl,
        by intro e he; simp at he; subst he; exact ⟨rfl, rfl⟩⟩)).2

/-- Counterexample for C9: a poll result with status `"error"` whose `message`
field is present but empty fails the job with an empty error message — the
`"Unknown error"` default applies only when the field is absent. -/
theorem claim_c9_counterexample :
    (runFinal sampleJob emptyMsgErrInp).status = .failed ∧
    (runFinal sampleJob emptyMsgErrInp).error = "" :=
  ⟨rfl, rfl⟩

/-- C9 (amended): a job that ends `failed` carries a non-empty error message
except on one path — a poll result with status `"error"` whose `message` field
is present and empty; whenever a failed job's error message is empty, some
poll response within the budget contained such a result entry. -/
theorem claim_c9_amended_nonempty_error (job : Job) (inp : RunInputs)
    (hfail : (runFinal job inp).status = .failed)
    (hempty : (runFinal job inp).error = "") :
    ∃ i, i < 120 ∧ ∃ errs data e, inp.polls i = .parsed errs data ∧
      e ∈ data ∧ statusOf e = "error" ∧ e.message = some "" := by
  cases hre : firstReadErr inp.readF (usePathsOf job.imagePaths) 0 with
  | some pr =>
    have hrun : runwareGenerate job inp =
        ([.fail ("Failed to read image " ++ toString (pr.1 + 1) ++ ": " ++ pr.2)], 0) := by
      unfold runwareGenerate
      simp [hre]
    obtain ⟨h1, _⟩ := runFinal_of_run job inp _ _ hrun
    rw [h1] at hempty
    simp only [applyMutation, setJobError] at hempty
    exact absurd hempty
      (append_left_ne_empty _ _ (append_left_ne_empty _ _ (append_left_ne_empty _ _ (by decide))))
  | none =>
    cases hsu : inp.submit with
    | transportErr e =>
      have hrun : runwareGenerate job inp = ([.fail ("Runware API error: " ++ e)], 0) := by
        unfold runwareGenerate
        simp [hre, hsu]
      obtain ⟨h1, _⟩ := runFinal_of_run job inp _ _ hrun
      rw [h1] at hempty
      simp only [applyMutation, setJobError] at hempty
      exact absurd hempty (append_left_ne_empty _ _ (by decide))
    | httpErr code body =>
      have hrun : runwareGenerate job inp =
          ([.fail ("Runware API " ++ toString code ++ ": " ++ body)], 0) := by
        unfold runwareGenerate
        simp [hre, hsu]
      obtain ⟨h1, _⟩ := runFinal_of_run job inp _ _ hrun
      rw [h1] at hempty
      simp only [applyMutation, setJobError] at hempty
      exact absurd hempty
        (append_left_ne_empty _ _ (append_left_ne_empty _ _ (append_left_ne_empty _ _ (by decide))))
    | badBody e =>
      have hrun : runwareGenerate job inp = ([.fail ("Failed to parse response: " ++ e)], 0) := by
        unfold runwareGenerate
        simp [hre, hsu]
      obtain ⟨h1, _⟩ := runFinal_of_run job inp _ _ hrun
      rw [h1] at hempty
      simp only [applyMutation, setJobError] at hempty
      exact absurd hempty (append_left_ne_empty _ _ (by decide))
    | parsed data =>
      cases himm : findVideoURL data with
      | some url =>
        have hrun : runwareGenerate job inp = ([.complete url], 0) := by
          unfold runwareGenerate
          simp [hre, hsu, himm]
        obtain ⟨h1, _⟩ := runFinal_of_run job inp _ _ hrun
        rw [h1] at hfail
        simp [applyMutation, completeJobWithVideo] at hfail
      | none =>
        obtain ⟨mm, hmm⟩ := pollResult_single inp.polls 120 0
        have h1 : runFinal job inp = applyMutation inp.dl job mm := by
          simp [runFinal, runwareGenerate_poll job inp data hre hsu himm, hmm]
        cases mm with
        | complete u =>
          rw [h1] at hfail
          simp [applyMutation, completeJobWithVideo] at hfail
        | fail mf =>
          rw [h1] at hempty
          have hmf : mf = "" := by
            simpa [applyMutation, setJobError] using hempty
          subst hmf
          rcases pollResult_fail_msg inp.polls 120 0 "" hmm with ht | ⟨i2, _, hlt, hstep⟩
          · exact absurd ht (by decide)
          · obtain ⟨errs, dta, hpe, hcase⟩ := pollStep_fail_shape _ _ hstep
            rcases hcase with hErrArr | ⟨e, he, hst, hmsg⟩
            · exact absurd rfl (firstErrMsg_ne_empty errs "" hErrArr)
            · have hm2 : e.message = some "" := by
                cases hm3 : e.message with
                | none =>
                  rw [hm3] at hmsg
                  simp only [Option.getD_none] at hmsg
                  exact absurd hmsg (by decide : ("Unknown error" : String) ≠ "")
                | some s =>
                  rw [hm3] at hmsg
                  simp only [Option.getD_some] at hmsg
                  rw [hmsg]
              exact ⟨i2, by omega, errs, dta, e, hpe, he, hst, hm2⟩

/-- Witness for C9 (amended): on the counterexample run, the offending poll
response with an explicitly empty error message exists within the budget. -/
theorem claim_c9_witness :
    ∃ i, i < 120 ∧ ∃ errs data e, emptyMsgErrInp.polls i = .parsed errs data ∧
      e ∈ data ∧ statusOf e = "error" ∧ e.message = some "" :=
  claim_c9_amended_nonempty_error sampleJob emptyMsgErrInp rfl rfl

end AdsVideoGen
